import Mathlib

/-!
Verification of the `get-llm-chat` conversation parser and export generators.

This file gives a shallow embedding of the HTML-parsing layer
(`api/parse-conversation.ts`, `src/services/chatgptParser.ts`), the URL
validator (`src/utils/validators.ts` with the pattern table from
`src/utils/constants.ts`) and the export generators
(`src/services/exportGenerators.ts`), together with theorems about the
properties the design documents state for them.

The DOM is modelled as a tree of element/text nodes (the result of
`cheerio.load`); cheerio queries become pure functions over that tree.
JavaScript strings are modelled as Lean `String`s (`.length` counts
characters; identical for the ASCII data these functions handle).
-/

/-- JavaScript `\s` / `String.prototype.trim` whitespace, restricted to the
common code points (ASCII whitespace, NBSP, BOM); the remaining Unicode
space separators behave identically for the inputs modelled here. -/
def jsWs (c : Char) : Bool :=
  c = ' ' || c = '\t' || c = '\n' || c = '\r' || c = '\x0b' || c = '\x0c' ||
  c = '\u00A0' || c = '\uFEFF'

/-- `String.prototype.trim`. -/
def jsTrim (s : String) : String :=
  String.mk (((s.data.dropWhile jsWs).reverse.dropWhile jsWs).reverse)

/-- One step of `replace(/\s+/g, ' ')`: every maximal run of whitespace
becomes a single space. -/
def collapseWs : List Char → List Char
  | [] => []
  | [c] => if jsWs c then [' '] else [c]
  | c :: d :: rest =>
    if jsWs c && jsWs d then collapseWs (d :: rest)
    else (if jsWs c then ' ' else c) :: collapseWs (d :: rest)

/-- Index of the last `'\n'` in a list, if any. -/
def lastNl (l : List Char) : Option Nat :=
  (l.reverse.findIdx? (· = '\n')).map (fun i => l.length - 1 - i)

/-- `replace(/\n\s*\n/g, '\n\n')`: at each `'\n'`, the greedy `\s*` backtracks
to the last `'\n'` inside the next whitespace run; the match is replaced
by `"\n\n"` and scanning resumes after it. -/
def nlnlAux : Nat → List Char → List Char
  | _, [] => []
  | 0, l => l
  | fuel + 1, c :: cs =>
    if c = '\n' then
      match lastNl (cs.takeWhile jsWs) with
      | some j => '\n' :: '\n' :: nlnlAux fuel (cs.drop (j + 1))
      | none => c :: nlnlAux fuel cs
    else c :: nlnlAux fuel cs

/-- The whole replacement; the fuel `l.length` never runs out because every
step consumes at least one character. -/
def nlnl (l : List Char) : List Char := nlnlAux l.length l

/-- `String.prototype.toLowerCase`, ASCII range (the inputs are ASCII). -/
def strToLower (s : String) : String :=
  String.mk (s.data.map Char.toLower)

/-- Does `n` occur at the head of `h`? -/
def subAt : List Char → List Char → Bool
  | [], _ => true
  | _ :: _, [] => false
  | a :: as, b :: bs => a == b && subAt as bs

/-- Does `n` occur anywhere in `h`? -/
def hasSub (n : List Char) : List Char → Bool
  | [] => n.isEmpty
  | c :: cs => subAt n (c :: cs) || hasSub n cs

/-- `String.prototype.includes`. -/
def jsIncludes (needle s : String) : Bool :=
  hasSub needle.data s.data

/-- First capture of a JS regex of the form `/pat(\w+)/` (e.g.
`/language-(\w+)/`): scan left to right; at the first position where `pat`
occurs followed by at least one word character, capture the maximal run of
word characters. -/
def capAfter (pat : List Char) : List Char → Option (List Char)
  | [] => none
  | c :: cs =>
    if subAt pat (c :: cs) then
      let w := ((c :: cs).drop pat.length).takeWhile
        (fun ch => ch.isAlphanum || ch = '_')
      if w.isEmpty then capAfter pat cs else some w
    else capAfter pat cs

/-- Split on whitespace runs, dropping empty tokens (cheerio `hasClass`
tokenisation of a `class` attribute). `acc` holds the current token
reversed. -/
def wsSplitAux (acc : List Char) : List Char → List (List Char)
  | [] => if acc.isEmpty then [] else [acc.reverse]
  | c :: cs =>
    if jsWs c then
      if acc.isEmpty then wsSplitAux [] cs else acc.reverse :: wsSplitAux [] cs
    else wsSplitAux (c :: acc) cs

/-- Case-insensitive "starts with" (the `/i` regex flag on a literal
pattern). -/
def ciStarts : List Char → List Char → Bool
  | [], _ => true
  | _ :: _, [] => false
  | a :: as, b :: bs => a.toLower == b.toLower && ciStarts as bs

/-- A DOM node as produced by `cheerio.load`: an element with a tag name,
an attribute list and children, or a text node. -/
inductive Node where
  | elem (tag : String) (attrs : List (String × String)) (children : List Node)
  | text (s : String)

/-- First attribute with the given (lowercase) name. -/
def lookupAttr (a : String) : List (String × String) → Option String
  | [] => none
  | (n, v) :: rest => if n = a then some v else lookupAttr a rest

/-- `$element.attr(a)`. -/
def Node.getAttr (a : String) : Node → Option String
  | .text _ => none
  | .elem _ attrs _ => lookupAttr a attrs

mutual
/-- `$element.text()`: concatenation of all descendant text, document
order. -/
def Node.textOf : Node → String
  | .text s => s
  | .elem _ _ cs => textOfList cs

def textOfList : List Node → String
  | [] => ""
  | n :: ns => n.textOf ++ textOfList ns
end

mutual
/-- All element nodes of the subtree, self included, pre-order. -/
def Node.elems : Node → List Node
  | .text _ => []
  | .elem t a cs => .elem t a cs :: elemsList cs

def elemsList : List Node → List Node
  | [] => []
  | n :: ns => n.elems ++ elemsList ns
end

/-- Escape text content the way the cheerio serializer does (sufficient for
the substring tests performed on serialized HTML). -/
def escTextChar (c : Char) : String :=
  if c = '&' then "&amp;" else if c = '<' then "&lt;"
  else if c = '>' then "&gt;" else String.mk [c]

def escText (s : String) : String :=
  String.join (s.data.map escTextChar)

def escAttrChar (c : Char) : String :=
  if c = '&' then "&amp;" else if c = '"' then "&quot;" else String.mk [c]

def escAttr (s : String) : String :=
  String.join (s.data.map escAttrChar)

def attrsHtml : List (String × String) → String
  | [] => ""
  | (n, v) :: rest => " " ++ n ++ "=\"" ++ escAttr v ++ "\"" ++ attrsHtml rest

mutual
/-- Serialization of a node (cheerio `.html()` of a wrapper). -/
def Node.outerHtml : Node → String
  | .text s => escText s
  | .elem t a cs => "<" ++ t ++ attrsHtml a ++ ">" ++ htmlList cs ++ "</" ++ t ++ ">"

def htmlList : List Node → String
  | [] => ""
  | n :: ns => n.outerHtml ++ htmlList ns
end

/-- `$element.html()`: serialization of the children. -/
def Node.innerHtml : Node → String
  | .text _ => ""
  | .elem _ _ cs => htmlList cs

/-- The CSS selector fragments used by the source. -/
inductive Sel where
  | tag (t : String)
  | cls (c : String)
  | attrPresent (a : String)
  | attrEq (a v : String)
  | sor (s1 s2 : Sel)
  | sand (s1 s2 : Sel)
deriving Repr

/-- Does a single element match a selector? (Text nodes never match.) -/
def selMatches : Sel → Node → Bool
  | .tag t, .elem tg _ _ => tg == t
  | .cls c, .elem _ attrs _ =>
    (wsSplitAux [] ((lookupAttr "class" attrs).getD "").data).contains c.data
  | .attrPresent a, .elem _ attrs _ => (lookupAttr a attrs).isSome
  | .attrEq a v, .elem _ attrs _ => lookupAttr a attrs == some v
  | .sor s1 s2, n => selMatches s1 n || selMatches s2 n
  | .sand s1 s2, n => selMatches s1 n && selMatches s2 n
  | _, .text _ => false

/-- `$element.find(sel)`: matching strict descendants, document order. -/
def Node.findAll (s : Sel) : Node → List Node
  | .text _ => []
  | .elem _ _ cs => (elemsList cs).filter (selMatches s)

/-- `$(sel)` over the loaded document (rooted at `doc`). -/
def docQuery (s : Sel) (doc : Node) : List Node :=
  doc.elems.filter (selMatches s)

/-- `$element.hasClass c`. -/
def Node.hasClass (c : String) (n : Node) : Bool :=
  selMatches (.cls c) n

mutual
/-- Helper for `find('pre code')`: collect `code` elements together with
their direct parent, visiting `n` whose direct parent is `parent`;
`underPre` records whether some ancestor at or below the search root is a
`pre`. -/
def preCodeN (parent : Node) (underPre : Bool) : Node → List (Node × Node)
  | .text _ => []
  | .elem t a cs =>
    (if t = "code" && underPre then [(parent, Node.elem t a cs)] else []) ++
      preCodeL (Node.elem t a cs) (underPre || t = "pre") cs

def preCodeL (parent : Node) (underPre : Bool) : List Node → List (Node × Node)
  | [] => []
  | n :: ns => preCodeN parent underPre n ++ preCodeL parent underPre ns
end

/-- `$element.find('pre code')` with the matched element's direct parent
(for `detectCodeLanguage`'s `$code.parent()`). The `pre` ancestor may be the
search root itself. -/
def Node.findPreCode : Node → List (Node × Node)
  | .text _ => []
  | .elem t a cs => preCodeL (Node.elem t a cs) (t = "pre") cs

/-! ## The conversation data model (`src/types/conversation.ts`,
`api/parse-conversation.ts`) -/

/-- `MessageRole`. -/
inductive MessageRole where
  | user
  | assistant
  | system
deriving DecidableEq, Repr

/-- A timestamp value as it exists at runtime: the frontend type declares
`Date`, the API route produces ISO strings; both flow into the generators.
`date iso` is a JS `Date` whose `toJSON()` is `iso`; `str s` is a plain
string. -/
inductive TimeVal where
  | date (iso : String)
  | str (s : String)
deriving DecidableEq, Repr

/-- `Artifact.type`. -/
inductive ArtifactType where
  | code
  | image
  | file
  | link
deriving DecidableEq, Repr

/-- `Artifact`. -/
structure Artifact where
  type : ArtifactType
  content : String
  language : Option String
deriving DecidableEq, Repr

/-- `FormattingInfo`. -/
structure FormattingInfo where
  isMarkdown : Bool
  hasCodeBlocks : Bool
  hasLinks : Bool
  hasImages : Bool
deriving DecidableEq, Repr

/-- `MessageContent`. -/
structure MessageContent where
  text : String
  artifacts : Option (List Artifact)
  formatting : FormattingInfo
deriving DecidableEq, Repr

/-- `MessageMetadata` (the parsers populate only `timestamp`). -/
structure MessageMetadata where
  timestamp : TimeVal
deriving DecidableEq, Repr

/-- `Message`. -/
structure Message where
  id : String
  role : MessageRole
  content : MessageContent
  timestamp : TimeVal
  metadata : MessageMetadata
deriving DecidableEq, Repr

/-- `ConversationMetadata`. -/
structure ConversationMetadata where
  platform : String
  extractedAt : TimeVal
  messageCount : Nat
  title : String
  url : Option String
deriving DecidableEq, Repr

/-- `Conversation`. -/
structure Conversation where
  id : String
  title : String
  platform : String
  createdAt : TimeVal
  updatedAt : TimeVal
  messages : List Message
  metadata : ConversationMetadata
deriving DecidableEq, Repr

/-! ## The API route parser (`api/parse-conversation.ts`)

Impure inputs are passed explicitly: `now` is `new Date().toISOString()`
taken once in `parseConversationFromHtml`; `convId` is its `uuidv4()`;
`msgId i` / `msgTime i` are the `uuidv4()` and `new Date().toISOString()`
evaluated while processing the container at index `i`. -/

namespace ApiParse

/-- `text.replace(/\s+/g, ' ').replace(/\n\s*\n/g, '\n\n').trim()`. -/
def cleanChain (s : String) : String :=
  jsTrim (String.mk (nlnl (collapseWs s.data)))

/-- `title.replace(/^ChatGPT\s*[-|]\s*/, '')`: strip a leading `"ChatGPT"`,
whitespace, a dash or pipe, and whitespace; unchanged when the anchored
pattern does not match. -/
def stripTitleNoise (t : String) : String :=
  if subAt "ChatGPT".data t.data then
    let rest := (t.data.drop 7).dropWhile jsWs
    match rest with
    | '-' :: more => String.mk (more.dropWhile jsWs)
    | '|' :: more => String.mk (more.dropWhile jsWs)
    | _ => t
  else t

/-- The shared body of one `extractTitle` loop iteration: the candidate
title must be non-empty and different from `"ChatGPT"`; after noise
stripping and trimming it must still be non-empty, else the loop moves on
to the next selector. -/
def titleCheck (t : String) : Option String :=
  if t ≠ "" ∧ t ≠ "ChatGPT" then
    if (jsTrim (stripTitleNoise t)).length > 0 then some (jsTrim (stripTitleNoise t))
    else none
  else none

/-- One `extractTitle` iteration for a text-bearing selector
(`element.text().trim()`). -/
def tryTitleText (doc : Node) (s : Sel) : Option String :=
  match (docQuery s doc).head? with
  | none => none
  | some el => titleCheck (jsTrim el.textOf)

/-- The `meta[property="og:title"]` iteration (`element.attr('content')`). -/
def tryTitleMeta (doc : Node) : Option String :=
  match (docQuery (.sand (.tag "meta") (.attrEq "property" "og:title")) doc).head? with
  | none => none
  | some el => titleCheck ((el.getAttr "content").getD "")

/-- `extractTitle`: first selector that yields a usable title, else the
default `"ChatGPT Conversation"`. -/
def extractTitle (doc : Node) : String :=
  ((((tryTitleText doc (.tag "title")).or
      (tryTitleText doc (.tag "h1"))).or
      ((tryTitleText doc (.sand (.tag "div") (.attrEq "data-testid" "conversation-title"))).or
      (tryTitleText doc (.cls "conversation-title")))).or
      (tryTitleMeta doc)).getD "ChatGPT Conversation"

/-- `extractMessages`'s selector cascade: the first of
`[data-message-author-role]`, `.conversation-turn`, `[role="presentation"]`,
`.group` that matches at least one element. -/
def selectContainers (doc : Node) : List Node :=
  let s1 := docQuery (.attrPresent "data-message-author-role") doc
  if !s1.isEmpty then s1 else
  let s2 := docQuery (.cls "conversation-turn") doc
  if !s2.isEmpty then s2 else
  let s3 := docQuery (.attrEq "role" "presentation") doc
  if !s3.isEmpty then s3 else
  let s4 := docQuery (.cls "group") doc
  if !s4.isEmpty then s4 else []

/-- `extractMessageRole`: explicit `data-message-author-role` attribute,
else the length/code heuristic. -/
def extractMessageRole (el : Node) : MessageRole :=
  let roleAttr := el.getAttr "data-message-author-role"
  if roleAttr = some "user" then .user
  else if roleAttr = some "assistant" then .assistant
  else if roleAttr = some "system" then .system
  else if (strToLower el.textOf).length < 50 &&
      !(jsIncludes "code" (strToLower el.innerHtml)) then .user
  else .assistant

/-- `detectLanguageFromContent`. -/
def detectLanguageFromContent (content : String) : Option String :=
  if jsIncludes "import " content && jsIncludes "from " content then some "javascript"
  else if jsIncludes "def " content && jsIncludes ":" content then some "python"
  else if jsIncludes "function " content && jsIncludes "\x7b" content then some "javascript"
  else if jsIncludes "class " content && jsIncludes "\x7b" content then some "java"
  else if jsIncludes "<?php" content then some "php"
  else if jsIncludes "#include" content then some "cpp"
  else if jsIncludes "SELECT " content || jsIncludes "FROM " content then some "sql"
  else none

/-- The language of one `code` element: `class` hints
(`/language-(\w+)/`, `/lang-(\w+)/`) first, else content heuristics. -/
def codeLanguage (codeEl : Node) (codeContent : String) : Option String :=
  let className := (codeEl.getAttr "class").getD ""
  match capAfter "language-".data className.data with
  | some w => some (String.mk w)
  | none =>
    match capAfter "lang-".data className.data with
    | some w => some (String.mk w)
    | none => detectLanguageFromContent codeContent

/-- `extractMessageContent`. -/
def extractMessageContent (el : Node) : MessageContent :=
  let text := cleanChain (jsTrim el.textOf)
  let hasCodeBlocks := !(el.findAll (.sor (.tag "code") (.tag "pre"))).isEmpty
  let hasLinks := !(el.findAll (.tag "a")).isEmpty
  let hasImages := !(el.findAll (.tag "img")).isEmpty
  let artifacts :=
    if hasCodeBlocks then
      (el.findAll (.tag "code")).filterMap fun codeEl =>
        let codeContent := jsTrim codeEl.textOf
        if codeContent ≠ "" ∧ codeContent.length > 10 then
          some { type := .code, content := codeContent,
                 language := codeLanguage codeEl codeContent }
        else none
    else []
  { text := text
    artifacts := if artifacts.length > 0 then some artifacts else none
    formatting :=
      { isMarkdown := true, hasCodeBlocks := hasCodeBlocks,
        hasLinks := hasLinks, hasImages := hasImages } }

/-- The per-container loop of `extractMessages`: a message is pushed only
when its cleaned text is non-empty after `trim()`. -/
def extractMessagesAux (msgId msgTime : Nat → String) : Nat → List Node → List Message
  | _, [] => []
  | i, el :: rest =>
    let content := extractMessageContent el
    if jsTrim content.text ≠ "" then
      { id := msgId i, role := extractMessageRole el, content := content,
        timestamp := .str (msgTime i),
        metadata := { timestamp := .str (msgTime i) } }
        :: extractMessagesAux msgId msgTime (i + 1) rest
    else extractMessagesAux msgId msgTime (i + 1) rest

/-- `extractMessages`. -/
def extractMessages (doc : Node) (msgId msgTime : Nat → String) : List Message :=
  extractMessagesAux msgId msgTime 0 (selectContainers doc)

/-- `parseConversationFromHtml` (the document `doc` is `cheerio.load html`). -/
def parseConversationFromHtml (doc : Node) (originalUrl : String)
    (now convId : String) (msgId msgTime : Nat → String) :
    Except String Conversation :=
  let title := extractTitle doc
  let messages := extractMessages doc msgId msgTime
  if messages.length = 0 then
    .error "No messages found in the conversation. The page may be private or the structure has changed."
  else
    .ok { id := convId, title := title, platform := "chatgpt",
          createdAt := .str now, updatedAt := .str now, messages := messages,
          metadata :=
            { platform := "chatgpt", extractedAt := .str now,
              messageCount := messages.length, title := title,
              url := some originalUrl } }

end ApiParse

/-- The API route handler's own pre-fetch URL gate
(`api/parse-conversation.ts` lines 70–74): the request is rejected with a
400 unless the URL *contains* `"chatgpt.com"` or `"chat.openai.com"` as a
substring; any URL passing this test is fetched. -/
def handlerUrlGate (url : String) : Bool :=
  jsIncludes "chatgpt.com" url || jsIncludes "chat.openai.com" url

/-! ## The frontend parser class (`src/services/chatgptParser.ts`)

`PARSING_SELECTORS.chatgpt.messages` is `'[data-message-author-role]'`.
Message timestamps come from `extractTimestamp` and are JS `Date`s;
`parseDate` models `new Date(datetimeAttr)` (returning the parsed date's
ISO form when the attribute is a valid date) and `now` the fallback
`new Date()`. -/

namespace ChatGPTParser

/-- `cleanTextContent`. -/
def cleanTextContent (s : String) : String :=
  jsTrim (String.mk (nlnl (collapseWs s.data)))

/-- `extractTitle` — same selector cascade as the API route. -/
def extractTitle (doc : Node) : String :=
  ApiParse.extractTitle doc

/-- `extractMessageRole`: explicit attribute, else class markers, else
`assistant`. -/
def extractMessageRole (el : Node) : MessageRole :=
  let roleAttr := el.getAttr "data-message-author-role"
  if roleAttr = some "user" then .user
  else if roleAttr = some "assistant" then .assistant
  else if roleAttr = some "system" then .system
  else if el.hasClass "user-message" || !(el.findAll (.cls "user-message")).isEmpty then
    .user
  else if el.hasClass "assistant-message" ||
      !(el.findAll (.cls "assistant-message")).isEmpty then
    .assistant
  else .assistant

/-- `detectCodeLanguage`: `language-`/`lang-`/`highlight-` class hints on
the element, then on its direct parent; `parentClass` is
`$code.parent().attr('class') ?? ''`. -/
def detectCodeLanguage (className parentClass : String) : Option String :=
  match capAfter "language-".data className.data with
  | some w => some (String.mk w)
  | none =>
  match capAfter "lang-".data className.data with
  | some w => some (String.mk w)
  | none =>
  match capAfter "highlight-".data className.data with
  | some w => some (String.mk w)
  | none =>
  match capAfter "language-".data parentClass.data with
  | some w => some (String.mk w)
  | none =>
  match capAfter "lang-".data parentClass.data with
  | some w => some (String.mk w)
  | none =>
  match capAfter "highlight-".data parentClass.data with
  | some w => some (String.mk w)
  | none => none

/-- The content-container cascade of `extractMessageContent`:
`.markdown`, `.prose`, `.message-content`, `[data-message-content]`,
falling back to the message element itself. -/
def contentElement (el : Node) : Node :=
  match (el.findAll (.cls "markdown")).head? with
  | some found => found
  | none =>
  match (el.findAll (.cls "prose")).head? with
  | some found => found
  | none =>
  match (el.findAll (.cls "message-content")).head? with
  | some found => found
  | none =>
  match (el.findAll (.attrPresent "data-message-content")).head? with
  | some found => found
  | none => el

/-- `extractMessageContent`: note that *any* non-empty trimmed code content
becomes an artifact — there is no minimum-length filter here. -/
def extractMessageContent (el : Node) : MessageContent :=
  let contentEl := contentElement el
  let text := cleanTextContent contentEl.textOf
  let hasCodeBlocks :=
    !(contentEl.findAll (.sor (.sor (.tag "pre") (.tag "code")) (.cls "code-block"))).isEmpty
  let hasLinks := !(contentEl.findAll (.tag "a")).isEmpty
  let hasImages := !(contentEl.findAll (.tag "img")).isEmpty
  let artifacts :=
    if hasCodeBlocks then
      contentEl.findPreCode.filterMap fun pc =>
        let codeContent := jsTrim pc.2.textOf
        if codeContent ≠ "" then
          some { type := .code, content := codeContent,
                 language := detectCodeLanguage
                   ((pc.2.getAttr "class").getD "")
                   ((pc.1.getAttr "class").getD "") }
        else none
    else []
  { text := text
    artifacts := if artifacts.length > 0 then some artifacts else none
    formatting :=
      { isMarkdown := true, hasCodeBlocks := hasCodeBlocks,
        hasLinks := hasLinks, hasImages := hasImages } }

/-- `extractTimestamp`: first `time[datetime]` descendant with a valid
datetime, else the current time. -/
def extractTimestamp (parseDate : String → Option String) (now : String)
    (el : Node) : TimeVal :=
  match (el.findAll (.sand (.tag "time") (.attrPresent "datetime"))).head? with
  | some timeEl =>
    match timeEl.getAttr "datetime" with
    | some d =>
      match parseDate d with
      | some iso => .date iso
      | none => .date now
    | none => .date now
  | none => .date now

/-- The per-container loop of `extractMessages`. -/
def extractMessagesAux (parseDate : String → Option String)
    (msgId msgTime : Nat → String) : Nat → List Node → List Message
  | _, [] => []
  | i, el :: rest =>
    let content := extractMessageContent el
    let timestamp := extractTimestamp parseDate (msgTime i) el
    if jsTrim content.text ≠ "" then
      { id := msgId i, role := extractMessageRole el, content := content,
        timestamp := timestamp, metadata := { timestamp := timestamp } }
        :: extractMessagesAux parseDate msgId msgTime (i + 1) rest
    else extractMessagesAux parseDate msgId msgTime (i + 1) rest

/-- `extractMessages` over `PARSING_SELECTORS.chatgpt.messages`. -/
def extractMessages (doc : Node) (parseDate : String → Option String)
    (msgId msgTime : Nat → String) : List Message :=
  extractMessagesAux parseDate msgId msgTime 0
    (docQuery (.attrPresent "data-message-author-role") doc)

/-- `parseFromHtml` (the document `doc` is `cheerio.load html`; the raw
`html` string is also consulted by the page-shape precheck). -/
def parseFromHtml (html : String) (doc : Node) (originalUrl : Option String)
    (parseDate : String → Option String) (now convId : String)
    (msgId msgTime : Nat → String) : Except String Conversation :=
  if !(jsIncludes "chatgpt" html) && !(jsIncludes "conversation" html) &&
      !(jsIncludes "message" html) then
    .error "This does not appear to be a ChatGPT conversation page. Please verify the URL or try copying the page HTML."
  else
    let title := extractTitle doc
    let messages := extractMessages doc parseDate msgId msgTime
    if messages.length = 0 then
      .error "No messages found in the conversation. The page structure may have changed or the conversation may be private."
    else
      .ok { id := convId, title := title, platform := "chatgpt",
            createdAt := .date now, updatedAt := .date now, messages := messages,
            metadata :=
              { platform := "chatgpt", extractedAt := .date now,
                messageCount := messages.length, title := title,
                url := originalUrl } }

end ChatGPTParser

/-! ## URL validation (`src/utils/validators.ts`, `src/utils/constants.ts`)

`new URL(trimmedUrl)` is the host URL parser; it is modelled as an oracle
`parseOk` supplied to `validateChatURL` — the code only observes whether it
throws. The four `PLATFORMS` patterns are anchored case-insensitive
regexes; `patMatch` returns the captured share id. -/

/-- `Platform`, in `PLATFORMS` declaration order. -/
inductive Platform where
  | chatgpt
  | claude
  | gemini
  | perplexity
deriving DecidableEq, Repr

/-- `[a-f0-9-]` under `/i`. -/
def hexDashChar (c : Char) : Bool :=
  c.isDigit || ('a' ≤ c.toLower && c.toLower ≤ 'f') || c = '-'

/-- `[a-f0-9]` under `/i`. -/
def hexChar (c : Char) : Bool :=
  c.isDigit || ('a' ≤ c.toLower && c.toLower ≤ 'f')

/-- `[a-zA-Z0-9_-]`. -/
def slugChar (c : Char) : Bool :=
  c.isAlphanum || c = '_' || c = '-'

/-- Match `^pfx(idChar+)$` case-insensitively, returning the capture. -/
def patMatch (pfx : String) (idChar : Char → Bool) (url : String) : Option String :=
  if ciStarts pfx.data url.data then
    let rest := url.data.drop pfx.length
    if !rest.isEmpty && rest.all idChar then some (String.mk rest) else none
  else none

/-- The `PLATFORMS` pattern table, first match in declaration order. -/
def platformMatch (url : String) : Option (Platform × String) :=
  match patMatch "https://chatgpt.com/share/" hexDashChar url with
  | some id => some (.chatgpt, id)
  | none =>
  match patMatch "https://claude.ai/share/" hexDashChar url with
  | some id => some (.claude, id)
  | none =>
  match patMatch "https://gemini.google.com/share/" hexChar url with
  | some id => some (.gemini, id)
  | none =>
  match patMatch "https://www.perplexity.ai/search/" slugChar url with
  | some id => some (.perplexity, id)
  | none => none

/-- `ERROR_MESSAGES.INVALID_URL`. -/
def invalidUrlMsg : String := "Please enter a valid shared chat URL"

/-- `ERROR_MESSAGES.UNSUPPORTED_PLATFORM`. -/
def unsupportedPlatformMsg : String := "This platform is not yet supported"

/-- `URLValidationResult`. -/
structure URLValidationResult where
  isValid : Bool
  platform : Option Platform
  chatId : Option String
  error : Option String
  suggestions : Option (List String)
deriving DecidableEq, Repr

/-- `validateChatURL` (`parseOk` reports whether `new URL` succeeds). -/
def validateChatURL (parseOk : String → Bool) (url : String) : URLValidationResult :=
  if url = "" then
    { isValid := false, platform := none, chatId := none,
      error := some invalidUrlMsg, suggestions := none }
  else
    let trimmedUrl := jsTrim url
    if trimmedUrl = "" then
      { isValid := false, platform := none, chatId := none,
        error := some invalidUrlMsg, suggestions := none }
    else if !(parseOk trimmedUrl) then
      { isValid := false, platform := none, chatId := none,
        error := some invalidUrlMsg,
        suggestions := some
          ["Make sure the URL starts with https://",
           "Check that the URL is complete and properly formatted"] }
    else
      match platformMatch trimmedUrl with
      | some pid =>
        { isValid := true, platform := some pid.1, chatId := some pid.2,
          error := none, suggestions := none }
      | none =>
        { isValid := false, platform := none, chatId := none,
          error := some unsupportedPlatformMsg,
          suggestions := some
            ["Supported platforms: ChatGPT, Claude, Gemini, Perplexity",
             "Make sure you're using a shared chat link",
             "Check that the URL format matches the platform's sharing format"] }

/-! ## Export generators (`src/services/exportGenerators.ts`) -/

/-- The JSON/CSV string form of a role. -/
def roleToString : MessageRole → String
  | .user => "user"
  | .assistant => "assistant"
  | .system => "system"

namespace CSVGenerator

/-- `text.replace(/"/g, '""')`. -/
def dqData : List Char → List Char
  | [] => []
  | c :: cs => if c = '"' then '"' :: '"' :: dqData cs else c :: dqData cs

/-- Double every double quote. -/
def dq (s : String) : String := String.mk (dqData s.data)

/-- `escapeCSV`. -/
def escapeCSV (text : String) : String :=
  if jsIncludes "," text || jsIncludes "\"" text || jsIncludes "\n" text then
    "\"" ++ dq text ++ "\""
  else text

/-- One CSV data row (`fmtTime` models
`format(message.timestamp, 'yyyy-MM-dd HH:mm:ss')` from date-fns). -/
def row (fmtTime : TimeVal → String) (includeTimestamps : Bool) (m : Message) : String :=
  let base := escapeCSV (roleToString m.role) ++ "," ++ escapeCSV m.content.text
  if includeTimestamps then base ++ "," ++ escapeCSV (fmtTime m.timestamp) else base

/-- `output += row.join(',') + '\n'` over all rows. -/
def rowsConcat : List String → String
  | [] => ""
  | r :: rs => r ++ "\n" ++ rowsConcat rs

/-- `CSVGenerator.generate`. -/
def generate (fmtTime : TimeVal → String) (includeTimestamps : Bool)
    (conv : Conversation) : String :=
  let header := if includeTimestamps then "Role,Content,Timestamp" else "Role,Content"
  header ++ "\n" ++ rowsConcat (conv.messages.map (row fmtTime includeTimestamps))

end CSVGenerator

/-! ## JSON export (`JSONGenerator`)

`JSONGenerator.generate` is `JSON.stringify(data, null, 2)` where `data`
spreads the conversation and keeps `metadata` only when `includeMetadata`.
`JSON.stringify` and `JSON.parse` are JS runtime primitives, not repository
code; they are modelled by the JSON document (`JValue`) the emitted text
denotes — `generateJson` builds exactly the document `JSON.parse` would
recover from the generated string. A JS `Date` is serialized through
`Date.prototype.toJSON` as its ISO string; parsing yields a plain string. -/

inductive JValue where
  | jnull
  | jbool (b : Bool)
  | jnum (n : Nat)
  | jstr (s : String)
  | jarr (xs : List JValue)
  | jobj (fields : List (String × JValue))

/-- Field lookup in a parsed JSON object. -/
def jLookup (k : String) : List (String × JValue) → Option JValue
  | [] => none
  | (n, v) :: rest => if n = k then some v else jLookup k rest

/-- Serialization of a timestamp value (`Date.prototype.toJSON` for dates). -/
def TimeVal.toJson : TimeVal → JValue
  | .date iso => .jstr iso
  | .str s => .jstr s

/-- What a `TimeVal` looks like after a stringify/parse round-trip: always a
plain string. -/
def TimeVal.toStrVal : TimeVal → TimeVal
  | .date iso => .str iso
  | .str s => .str s

def artifactTypeToString : ArtifactType → String
  | .code => "code"
  | .image => "image"
  | .file => "file"
  | .link => "link"

/-- JSON image of an artifact (`undefined` language is dropped by
`JSON.stringify`). -/
def Artifact.toJson (a : Artifact) : JValue :=
  .jobj ([("type", .jstr (artifactTypeToString a.type)),
          ("content", .jstr a.content)] ++
    (match a.language with
     | some l => [("language", JValue.jstr l)]
     | none => []))

def FormattingInfo.toJson (f : FormattingInfo) : JValue :=
  .jobj [("isMarkdown", .jbool f.isMarkdown),
         ("hasCodeBlocks", .jbool f.hasCodeBlocks),
         ("hasLinks", .jbool f.hasLinks),
         ("hasImages", .jbool f.hasImages)]

def MessageContent.toJson (c : MessageContent) : JValue :=
  .jobj ([("text", .jstr c.text)] ++
    (match c.artifacts with
     | some l => [("artifacts", JValue.jarr (l.map Artifact.toJson))]
     | none => []) ++
    [("formatting", c.formatting.toJson)])

def Message.toJson (m : Message) : JValue :=
  .jobj [("id", .jstr m.id),
         ("role", .jstr (roleToString m.role)),
         ("content", m.content.toJson),
         ("timestamp", m.timestamp.toJson),
         ("metadata", .jobj [("timestamp", m.metadata.timestamp.toJson)])]

def ConversationMetadata.toJson (md : ConversationMetadata) : JValue :=
  .jobj ([("platform", .jstr md.platform),
          ("extractedAt", md.extractedAt.toJson),
          ("messageCount", .jnum md.messageCount),
          ("title", .jstr md.title)] ++
    (match md.url with
     | some u => [("url", JValue.jstr u)]
     | none => []))

/-- The JSON document produced by `JSONGenerator.generate` (spread keys in
declaration order; `metadata: undefined` is dropped when `includeMetadata`
is false). -/
def JSONGenerator.generateJson (includeMetadata : Bool) (c : Conversation) : JValue :=
  .jobj ([("id", .jstr c.id),
          ("title", .jstr c.title),
          ("platform", .jstr c.platform),
          ("createdAt", c.createdAt.toJson),
          ("updatedAt", c.updatedAt.toJson),
          ("messages", .jarr (c.messages.map Message.toJson))] ++
    (if includeMetadata then [("metadata", c.metadata.toJson)] else []))

/-! ### Reading a parsed JSON document back as a `Conversation`

These functions express "parsing the produced JSON back reconstructs an
object": each reads the plain value `JSON.parse` yields at that position.
A timestamp position holds a plain string after parsing, so it reads back
as `TimeVal.str`. -/

def decodeStr : JValue → Option String
  | .jstr s => some s
  | _ => none

def decodeBool : JValue → Option Bool
  | .jbool b => some b
  | _ => none

def decodeNat : JValue → Option Nat
  | .jnum n => some n
  | _ => none

def decodeTime (v : JValue) : Option TimeVal :=
  (decodeStr v).map .str

def decodeRole : JValue → Option MessageRole
  | .jstr "user" => some .user
  | .jstr "assistant" => some .assistant
  | .jstr "system" => some .system
  | _ => none

def decodeArtifactType : JValue → Option ArtifactType
  | .jstr "code" => some .code
  | .jstr "image" => some .image
  | .jstr "file" => some .file
  | .jstr "link" => some .link
  | _ => none

/-- An optional string-valued key: absent is `none`, present must be a
string. -/
def decodeOptStr (k : String) (fs : List (String × JValue)) : Option (Option String) :=
  match jLookup k fs with
  | none => some none
  | some (.jstr s) => some (some s)
  | some _ => none

/-- Decode every element of a parsed array. -/
def decodeList (f : JValue → Option α) : List JValue → Option (List α)
  | [] => some []
  | v :: vs =>
    match f v, decodeList f vs with
    | some a, some as => some (a :: as)
    | _, _ => none

def decodeArtifact : JValue → Option Artifact
  | .jobj fs => do
    let t ← jLookup "type" fs >>= decodeArtifactType
    let c ← jLookup "content" fs >>= decodeStr
    let l ← decodeOptStr "language" fs
    some { type := t, content := c, language := l }
  | _ => none

def decodeFormatting : JValue → Option FormattingInfo
  | .jobj fs => do
    let a ← jLookup "isMarkdown" fs >>= decodeBool
    let b ← jLookup "hasCodeBlocks" fs >>= decodeBool
    let c ← jLookup "hasLinks" fs >>= decodeBool
    let d ← jLookup "hasImages" fs >>= decodeBool
    some { isMarkdown := a, hasCodeBlocks := b, hasLinks := c, hasImages := d }
  | _ => none

def decodeContent : JValue → Option MessageContent
  | .jobj fs => do
    let t ← jLookup "text" fs >>= decodeStr
    let arts ←
      match jLookup "artifacts" fs with
      | none => some none
      | some (.jarr vs) => (decodeList decodeArtifact vs).map some
      | some _ => none
    let f ← jLookup "formatting" fs >>= decodeFormatting
    some { text := t, artifacts := arts, formatting := f }
  | _ => none

def decodeMsgMetadata : JValue → Option MessageMetadata
  | .jobj fs => do
    let t ← jLookup "timestamp" fs >>= decodeTime
    some { timestamp := t }
  | _ => none

def decodeMessage : JValue → Option Message
  | .jobj fs => do
    let i ← jLookup "id" fs >>= decodeStr
    let r ← jLookup "role" fs >>= decodeRole
    let c ← jLookup "content" fs >>= decodeContent
    let t ← jLookup "timestamp" fs >>= decodeTime
    let md ← jLookup "metadata" fs >>= decodeMsgMetadata
    some { id := i, role := r, content := c, timestamp := t, metadata := md }
  | _ => none

def decodeConvMetadata : JValue → Option ConversationMetadata
  | .jobj fs => do
    let p ← jLookup "platform" fs >>= decodeStr
    let e ← jLookup "extractedAt" fs >>= decodeTime
    let n ← jLookup "messageCount" fs >>= decodeNat
    let t ← jLookup "title" fs >>= decodeStr
    let u ← decodeOptStr "url" fs
    some { platform := p, extractedAt := e, messageCount := n, title := t, url := u }
  | _ => none

def decodeConversation : JValue → Option Conversation
  | .jobj fs => do
    let i ← jLookup "id" fs >>= decodeStr
    let t ← jLookup "title" fs >>= decodeStr
    let p ← jLookup "platform" fs >>= decodeStr
    let ca ← jLookup "createdAt" fs >>= decodeTime
    let ua ← jLookup "updatedAt" fs >>= decodeTime
    let ms ←
      match jLookup "messages" fs with
      | some (.jarr vs) => decodeList decodeMessage vs
      | _ => none
    let md ← jLookup "metadata" fs >>= decodeConvMetadata
    some { id := i, title := t, platform := p, createdAt := ca, updatedAt := ua,
           messages := ms, metadata := md }
  | _ => none

/-- A message after a stringify/parse round-trip: `Date` timestamps become
their ISO strings. -/
def Message.toStrTimes (m : Message) : Message :=
  { m with timestamp := m.timestamp.toStrVal,
           metadata := { timestamp := m.metadata.timestamp.toStrVal } }

/-- A conversation after a stringify/parse round-trip: every `Date` field
becomes its ISO string; everything else is unchanged. -/
def Conversation.toStrTimes (c : Conversation) : Conversation :=
  { c with createdAt := c.createdAt.toStrVal,
           updatedAt := c.updatedAt.toStrVal,
           messages := c.messages.map Message.toStrTimes,
           metadata := { c.metadata with
                         extractedAt := c.metadata.extractedAt.toStrVal } }

/-! ## Concrete fixtures -/

/-- A placeholder conversation (only used as a `getD` fallback). -/
def arbConv : Conversation :=
  { id := "", title := "", platform := "", createdAt := .str "",
    updatedAt := .str "", messages := [],
    metadata := { platform := "", extractedAt := .str "", messageCount := 0,
                  title := "", url := none } }

/-- The fenced code block of the two-turn scenario. -/
def demoCode : String := "import React from react; const tick = useState(0);"

/-- Markup with one user container and one assistant container holding a
fenced `language-javascript` code block. -/
def demoDoc : Node :=
  .elem "html" []
    [.elem "body" []
      [.elem "div" [("data-message-author-role", "user")]
        [.text "Hello! Can you help me understand how React hooks work?"],
       .elem "div" [("data-message-author-role", "assistant")]
        [.text "Sure, here is an example:",
         .elem "pre" []
           [.elem "code" [("class", "language-javascript")] [.text demoCode]]]]]

/-- The API parser run on the two-turn markup. -/
def demoParse : Except String Conversation :=
  ApiParse.parseConversationFromHtml demoDoc "https://chatgpt.com/share/abc"
    "2024-01-01T00:00:00.000Z" "conv-1"
    (fun i => "msg-" ++ toString i) (fun _ => "2024-01-01T00:00:00.000Z")

/-- Its (successful) result. -/
def demoConv : Conversation := demoParse.toOption.getD arbConv

/-- The frontend parser class run on the same markup. -/
def demoParseFrontend : Except String Conversation :=
  ChatGPTParser.parseFromHtml "chatgpt page" demoDoc
    (some "https://chatgpt.com/share/abc") (fun _ => none)
    "2024-01-01T00:00:00.000Z" "conv-2"
    (fun i => "msg-" ++ toString i) (fun _ => "2024-01-01T00:00:00.000Z")

/-- Its (successful) result. -/
def demoConvFrontend : Conversation := demoParseFrontend.toOption.getD arbConv

/-- Markup whose only message container has no text at all. -/
def emptyContainerDoc : Node :=
  .elem "html" []
    [.elem "div" [("data-message-author-role", "user")] []]

/-- A marker-free container with short, code-free content. -/
def plainShortEl : Node := .elem "div" [] [.text "hi"]

/-- A message container holding a four-character code block. -/
def shortCodeEl : Node :=
  .elem "div" [("data-message-author-role", "assistant")]
    [.elem "pre" [] [.elem "code" [] [.text "x=1;"]]]

/-- A message container holding a code block above the length threshold. -/
def longCodeEl : Node :=
  .elem "div" [("data-message-author-role", "assistant")]
    [.elem "pre" [] [.elem "code" [] [.text demoCode]]]

/-- A message whose text holds a comma and an embedded double quote. -/
def trickyMsg : Message :=
  { id := "m1", role := .user,
    content :=
      { text := "a,b\"c", artifacts := none,
        formatting := { isMarkdown := true, hasCodeBlocks := false,
                        hasLinks := false, hasImages := false } },
    timestamp := .str "2024-01-01T00:00:00.000Z",
    metadata := { timestamp := .str "2024-01-01T00:00:00.000Z" } }

/-- A message whose text holds neither comma, quote nor newline. -/
def plainMsg : Message :=
  { id := "m2", role := .assistant,
    content :=
      { text := "plain text", artifacts := none,
        formatting := { isMarkdown := true, hasCodeBlocks := false,
                        hasLinks := false, hasImages := false } },
    timestamp := .str "2024-01-01T00:00:00.000Z",
    metadata := { timestamp := .str "2024-01-01T00:00:00.000Z" } }

/-- A two-message conversation exercising the CSV escaping branches. -/
def csvConv : Conversation :=
  { id := "c-csv", title := "CSV", platform := "chatgpt",
    createdAt := .str "2024-01-01T00:00:00.000Z",
    updatedAt := .str "2024-01-01T00:00:00.000Z",
    messages := [trickyMsg, plainMsg],
    metadata := { platform := "chatgpt", extractedAt := .str "2024-01-01T00:00:00.000Z",
                  messageCount := 2, title := "CSV", url := none } }

/-- A conversation whose timestamps are JS `Date` values, as produced by
`ChatGPTParser.parseFromHtml` / `createDemoConversation`. -/
def dateConv : Conversation :=
  { id := "c-date", title := "T", platform := "chatgpt",
    createdAt := .date "2024-01-01T00:00:00.000Z",
    updatedAt := .date "2024-01-01T00:00:00.000Z",
    messages := [],
    metadata := { platform := "chatgpt",
                  extractedAt := .date "2024-01-01T00:00:00.000Z",
                  messageCount := 0, title := "T", url := none } }

/-! ## Helper lemmas -/

theorem jsTrim_empty : jsTrim "" = "" := rfl

theorem ne_empty_of_jsTrim_ne {s : String} (h : jsTrim s ≠ "") : s ≠ "" := by
  intro he
  exact h (he ▸ jsTrim_empty)

theorem ne_empty_of_length_pos {s : String} (h : s.length > 0) : s ≠ "" := by
  intro he
  subst he
  exact absurd h (by decide)

theorem titleCheck_ne_empty {t r : String} (h : ApiParse.titleCheck t = some r) :
    r ≠ "" := by
  unfold ApiParse.titleCheck at h
  split at h
  · split at h
    · cases h
      exact ne_empty_of_length_pos (by assumption)
    · cases h
  · cases h

theorem tryTitleText_ne_empty {doc : Node} {s : Sel} {r : String}
    (h : ApiParse.tryTitleText doc s = some r) : r ≠ "" := by
  unfold ApiParse.tryTitleText at h
  split at h
  · cases h
  · exact titleCheck_ne_empty h

theorem tryTitleMeta_ne_empty {doc : Node} {r : String}
    (h : ApiParse.tryTitleMeta doc = some r) : r ≠ "" := by
  unfold ApiParse.tryTitleMeta at h
  split at h
  · cases h
  · exact titleCheck_ne_empty h

theorem or_getD_ne {o1 : Option String} {o2 : Option String} {d : String}
    (h1 : ∀ r, o1 = some r → r ≠ "") (h2 : o2.getD d ≠ "") :
    (o1.or o2).getD d ≠ "" := by
  cases o1 with
  | none => simpa [Option.or] using h2
  | some r => simpa [Option.or] using h1 r rfl

theorem or_some_ne {o1 : Option String} {o2 : Option String}
    (h1 : ∀ r, o1 = some r → r ≠ "") (h2 : ∀ r, o2 = some r → r ≠ "") :
    ∀ r, o1.or o2 = some r → r ≠ "" := by
  intro r hr
  cases o1 with
  | none => exact h2 r (by simpa [Option.or] using hr)
  | some a => exact h1 r (by simpa [Option.or] using hr)

theorem extractTitle_ne_empty (doc : Node) : ApiParse.extractTitle doc ≠ "" := by
  unfold ApiParse.extractTitle
  apply or_getD_ne
  · exact or_some_ne
      (or_some_ne (fun r hr => tryTitleText_ne_empty hr)
        (fun r hr => tryTitleText_ne_empty hr))
      (or_some_ne (fun r hr => tryTitleText_ne_empty hr)
        (fun r hr => tryTitleText_ne_empty hr))
  · rcases hm : ApiParse.tryTitleMeta doc with _ | r
    · exact (by decide : ("ChatGPT Conversation" : String) ≠ "")
    · simpa using tryTitleMeta_ne_empty hm

theorem apiAux_map_content (mid mt : Nat → String) (els : List Node) :
    ∀ i, (ApiParse.extractMessagesAux mid mt i els).map Message.content =
      (els.map ApiParse.extractMessageContent).filter
        (fun c => decide (jsTrim c.text ≠ "")) := by
  induction els with
  | nil => intro i; simp [ApiParse.extractMessagesAux]
  | cons el rest ih =>
    intro i
    simp only [ApiParse.extractMessagesAux, List.map_cons, List.filter_cons]
    by_cases h : jsTrim (ApiParse.extractMessageContent el).text ≠ ""
    · simp [h, ih]
    · simp [h, ih]

theorem chatAux_map_content (pd : String → Option String) (mid mt : Nat → String)
    (els : List Node) :
    ∀ i, (ChatGPTParser.extractMessagesAux pd mid mt i els).map Message.content =
      (els.map ChatGPTParser.extractMessageContent).filter
        (fun c => decide (jsTrim c.text ≠ "")) := by
  induction els with
  | nil => intro i; simp [ChatGPTParser.extractMessagesAux]
  | cons el rest ih =>
    intro i
    simp only [ChatGPTParser.extractMessagesAux, List.map_cons, List.filter_cons]
    by_cases h : jsTrim (ChatGPTParser.extractMessageContent el).text ≠ ""
    · simp [h, ih]
    · simp [h, ih]

theorem api_mem_messages_text_ne {doc : Node} {mid mt : Nat → String} {m : Message}
    (h : m ∈ ApiParse.extractMessages doc mid mt) : m.content.text ≠ "" := by
  have h2 : m.content ∈ (ApiParse.extractMessages doc mid mt).map Message.content :=
    List.mem_map_of_mem _ h
  rw [ApiParse.extractMessages, apiAux_map_content] at h2
  have h3 := List.of_mem_filter h2
  simp only [decide_eq_true_eq] at h3
  exact ne_empty_of_jsTrim_ne h3

theorem chat_mem_messages_text_ne {doc : Node} {pd : String → Option String}
    {mid mt : Nat → String} {m : Message}
    (h : m ∈ ChatGPTParser.extractMessages doc pd mid mt) : m.content.text ≠ "" := by
  have h2 : m.content ∈ (ChatGPTParser.extractMessages doc pd mid mt).map Message.content :=
    List.mem_map_of_mem _ h
  rw [ChatGPTParser.extractMessages, chatAux_map_content] at h2
  have h3 := List.of_mem_filter h2
  simp only [decide_eq_true_eq] at h3
  exact ne_empty_of_jsTrim_ne h3

/-! ## Claim theorems -/

/-- C1: every `Conversation` returned by either HTML parser — the API
route's `parseConversationFromHtml` and `ChatGPTParser.parseFromHtml` — has
`messages.length > 0`, a non-empty `title`, and each message carries
non-empty `content.text` and a role among user/assistant/system; and when
every container's cleaned text is empty, either parser throws (returns an
error) instead of producing blank-text messages. -/
theorem parse_validation_totality (doc : Node) (url now cid : String)
    (mid mt : Nat → String) (html : String) (ourl : Option String)
    (pd : String → Option String) :
    (∀ c, ApiParse.parseConversationFromHtml doc url now cid mid mt = .ok c →
      c.messages.length > 0 ∧ c.title ≠ "" ∧
      ∀ m ∈ c.messages, m.content.text ≠ "" ∧
        (m.role = .user ∨ m.role = .assistant ∨ m.role = .system))
    ∧ ((∀ el ∈ ApiParse.selectContainers doc,
          jsTrim (ApiParse.extractMessageContent el).text = "") →
        ∃ e, ApiParse.parseConversationFromHtml doc url now cid mid mt = .error e)
    ∧ (∀ c, ChatGPTParser.parseFromHtml html doc ourl pd now cid mid mt = .ok c →
      c.messages.length > 0 ∧ c.title ≠ "" ∧
      ∀ m ∈ c.messages, m.content.text ≠ "" ∧
        (m.role = .user ∨ m.role = .assistant ∨ m.role = .system))
    ∧ ((∀ el ∈ docQuery (.attrPresent "data-message-author-role") doc,
          jsTrim (ChatGPTParser.extractMessageContent el).text = "") →
        ∃ e, ChatGPTParser.parseFromHtml html doc ourl pd now cid mid mt = .error e) := by
  refine ⟨?_, ?_, ?_, ?_⟩
  · intro c hc
    unfold ApiParse.parseConversationFromHtml at hc
    simp only [] at hc
    split at hc
    · cases hc
    · rename_i hlen
      cases hc
      refine ⟨?_, extractTitle_ne_empty doc, ?_⟩
      · show (ApiParse.extractMessages doc mid mt).length > 0
        omega
      intro m hm
      refine ⟨api_mem_messages_text_ne hm, ?_⟩
      rcases m.role with _ | _ | _
      · exact Or.inl rfl
      · exact Or.inr (Or.inl rfl)
      · exact Or.inr (Or.inr rfl)
  · intro hall
    have hnil : ApiParse.extractMessages doc mid mt = [] := by
      have hmap := apiAux_map_content mid mt (ApiParse.selectContainers doc) 0
      have hfil : ((ApiParse.selectContainers doc).map ApiParse.extractMessageContent).filter
          (fun c => decide (jsTrim c.text ≠ "")) = [] := by
        apply List.filter_eq_nil_iff.mpr
        intro c hcmem
        rcases List.mem_map.mp hcmem with ⟨el, hel, rfl⟩
        simp [hall el hel]
      have : (ApiParse.extractMessages doc mid mt).map Message.content = [] := by
        rw [ApiParse.extractMessages, hmap, hfil]
      exact List.map_eq_nil_iff.mp this
    refine ⟨"No messages found in the conversation. The page may be private or the structure has changed.", ?_⟩
    simp [ApiParse.parseConversationFromHtml, hnil]
  · intro c hc
    unfold ChatGPTParser.parseFromHtml at hc
    split at hc
    · cases hc
    · simp only [] at hc
      split at hc
      · cases hc
      · rename_i hlen
        cases hc
        refine ⟨?_, extractTitle_ne_empty doc, ?_⟩
        · show (ChatGPTParser.extractMessages doc pd mid mt).length > 0
          omega
        intro m hm
        refine ⟨chat_mem_messages_text_ne hm, ?_⟩
        rcases m.role with _ | _ | _
        · exact Or.inl rfl
        · exact Or.inr (Or.inl rfl)
        · exact Or.inr (Or.inr rfl)
  · intro hall
    have hnil : ChatGPTParser.extractMessages doc pd mid mt = [] := by
      have hmap := chatAux_map_content pd mid mt
        (docQuery (.attrPresent "data-message-author-role") doc) 0
      have hfil : (((docQuery (.attrPresent "data-message-author-role") doc).map
            ChatGPTParser.extractMessageContent).filter
          (fun c => decide (jsTrim c.text ≠ ""))) = [] := by
        apply List.filter_eq_nil_iff.mpr
        intro c hcmem
        rcases List.mem_map.mp hcmem with ⟨el, hel, rfl⟩
        simp [hall el hel]
      have : (ChatGPTParser.extractMessages doc pd mid mt).map Message.content = [] := by
        rw [ChatGPTParser.extractMessages, hmap, hfil]
      exact List.map_eq_nil_iff.mp this
    unfold ChatGPTParser.parseFromHtml
    split
    · exact ⟨_, rfl⟩
    · refine ⟨"No messages found in the conversation. The page structure may have changed or the conversation may be private.", ?_⟩
      simp only []
      rw [hnil]
      rfl

/-- Witness for C1: both parsers on the two-turn fixture satisfy the
invariants, and both throw on the empty-container fixture. -/
theorem parse_validation_totality_witness :
    (demoConv.messages.length > 0 ∧ demoConv.title ≠ "" ∧
      ∀ m ∈ demoConv.messages, m.content.text ≠ "" ∧
        (m.role = .user ∨ m.role = .assistant ∨ m.role = .system))
    ∧ (∃ e, ApiParse.parseConversationFromHtml emptyContainerDoc "u" "n" "c"
        (fun _ => "i") (fun _ => "t") = .error e)
    ∧ (demoConvFrontend.messages.length > 0 ∧ demoConvFrontend.title ≠ "" ∧
      ∀ m ∈ demoConvFrontend.messages, m.content.text ≠ "" ∧
        (m.role = .user ∨ m.role = .assistant ∨ m.role = .system))
    ∧ (∃ e, ChatGPTParser.parseFromHtml "chatgpt page" emptyContainerDoc
        (some "u") (fun _ => none) "n" "c" (fun _ => "i") (fun _ => "t") = .error e) :=
  ⟨(parse_validation_totality demoDoc "https://chatgpt.com/share/abc"
      "2024-01-01T00:00:00.000Z" "conv-1"
      (fun i => "msg-" ++ toString i) (fun _ => "2024-01-01T00:00:00.000Z")
      "chatgpt page" (some "https://chatgpt.com/share/abc") (fun _ => none)).1
      demoConv rfl,
   (parse_validation_totality emptyContainerDoc "u" "n" "c"
      (fun _ => "i") (fun _ => "t") "chatgpt page" (some "u") (fun _ => none)).2.1
      (by decide),
   (parse_validation_totality demoDoc "https://chatgpt.com/share/abc"
      "2024-01-01T00:00:00.000Z" "conv-2"
      (fun i => "msg-" ++ toString i) (fun _ => "2024-01-01T00:00:00.000Z")
      "chatgpt page" (some "https://chatgpt.com/share/abc") (fun _ => none)).2.2.1
      demoConvFrontend rfl,
   (parse_validation_totality emptyContainerDoc "u" "n" "c"
      (fun _ => "i") (fun _ => "t") "chatgpt page" (some "u") (fun _ => none)).2.2.2
      (by decide)⟩

/-- C2: on markup with one user container saying "Hello! Can you help me
understand how React hooks work?" and one assistant container holding a
fenced `language-javascript` code block, the parser yields two messages with
roles `[user, assistant]`, the assistant one carrying exactly one code
artifact whose language is `"javascript"`. -/
theorem two_turn_scenario :
    ∃ c, demoParse = .ok c ∧
      c.messages.length = 2 ∧
      c.messages.map Message.role = [.user, .assistant] ∧
      (c.messages.map Message.role).head? = some .user ∧
      (c.messages.drop 1).map (fun m => m.content.artifacts) =
        [some [{ type := .code, content := demoCode, language := some "javascript" }]] :=
  ⟨demoConv, rfl, rfl, rfl, rfl, rfl⟩

/-- C3: extracted messages keep the document order of their containers —
the message contents are exactly the per-container extractions filtered by
non-empty cleaned text, with no reordering, for both the API parser and the
frontend parser class. -/
theorem message_ordering_preservation (doc : Node) (mid mt : Nat → String)
    (pd : String → Option String) :
    (ApiParse.extractMessages doc mid mt).map Message.content =
      ((ApiParse.selectContainers doc).map ApiParse.extractMessageContent).filter
        (fun c => decide (jsTrim c.text ≠ ""))
    ∧ (ChatGPTParser.extractMessages doc pd mid mt).map Message.content =
      ((docQuery (.attrPresent "data-message-author-role") doc).map
          ChatGPTParser.extractMessageContent).filter
        (fun c => decide (jsTrim c.text ≠ "")) :=
  ⟨apiAux_map_content mid mt (ApiParse.selectContainers doc) 0,
   chatAux_map_content pd mid mt (docQuery (.attrPresent "data-message-author-role") doc) 0⟩

theorem ciStarts_weaken : ∀ p q s : List Char,
    subAt p q = true → ciStarts q s = true → ciStarts p s = true
  | [], _, _, _, _ => rfl
  | a :: as, [], s, h, _ => by simp [subAt] at h
  | a :: as, b :: bs, [], _, h2 => by simp [ciStarts] at h2
  | a :: as, b :: bs, c :: cs, h, h2 => by
    simp only [subAt, Bool.and_eq_true, beq_iff_eq] at h
    simp only [ciStarts, Bool.and_eq_true, beq_iff_eq] at h2 ⊢
    exact ⟨h.1 ▸ h2.1, ciStarts_weaken as bs cs h.2 h2.2⟩

theorem patMatch_starts {pfx : String} {f : Char → Bool} {u : String} {cap : String}
    (h : patMatch pfx f u = some cap) : ciStarts pfx.data u.data = true := by
  unfold patMatch at h
  split at h
  · assumption
  · cases h

theorem platformMatch_https {u : String} (h : (platformMatch u).isSome = true) :
    ciStarts "https://".data u.data = true := by
  unfold platformMatch at h
  cases h1 : patMatch "https://chatgpt.com/share/" hexDashChar u with
  | some cap => exact ciStarts_weaken _ _ _ (by decide) (patMatch_starts h1)
  | none =>
  rw [h1] at h
  cases h2 : patMatch "https://claude.ai/share/" hexDashChar u with
  | some cap => exact ciStarts_weaken _ _ _ (by decide) (patMatch_starts h2)
  | none =>
  rw [h2] at h
  cases h3 : patMatch "https://gemini.google.com/share/" hexChar u with
  | some cap => exact ciStarts_weaken _ _ _ (by decide) (patMatch_starts h3)
  | none =>
  rw [h3] at h
  cases h4 : patMatch "https://www.perplexity.ai/search/" slugChar u with
  | some cap => exact ciStarts_weaken _ _ _ (by decide) (patMatch_starts h4)
  | none =>
  rw [h4] at h
  cases h

/-- C4 (amended): `validateChatURL` accepts a URL only when the host URL
parser accepts its trimmed form, it starts with `https://`
(case-insensitively), and it matches one of the four platform patterns. -/
theorem validateChatURL_only_if (parseOk : String → Bool) (url : String)
    (h : (validateChatURL parseOk url).isValid = true) :
    parseOk (jsTrim url) = true ∧
    ciStarts "https://".data (jsTrim url).data = true ∧
    (platformMatch (jsTrim url)).isSome = true := by
  unfold validateChatURL at h
  split at h
  · cases h
  · simp only [] at h
    split at h
    · cases h
    · split at h
      · cases h
      · rename_i hpo
        cases hm : platformMatch (jsTrim url) with
        | none => rw [hm] at h; cases h
        | some pid =>
          refine ⟨by simpa using hpo, ?_, by simp [hm]⟩
          exact platformMatch_https (by simp [hm])

/-- C4 counterexample: the API route's pre-fetch gate lets through a URL
that is not HTTPS, matches no platform pattern, and is rejected by
`validateChatURL` — so an invalid URL is fetched rather than rejected
before network activity. -/
theorem handler_fetches_unvalidated_url :
    handlerUrlGate "http://chatgpt.com.evil.example/x" = true ∧
    ciStarts "https://".data "http://chatgpt.com.evil.example/x".data = false ∧
    platformMatch "http://chatgpt.com.evil.example/x" = none ∧
    (validateChatURL (fun _ => true) "http://chatgpt.com.evil.example/x").isValid = false := by
  decide

/-- Witness for C4 (amended) at a well-formed ChatGPT share URL. -/
theorem validateChatURL_only_if_witness :
    (fun _ : String => true) (jsTrim "https://chatgpt.com/share/abc123") = true ∧
    ciStarts "https://".data (jsTrim "https://chatgpt.com/share/abc123").data = true ∧
    (platformMatch (jsTrim "https://chatgpt.com/share/abc123")).isSome = true :=
  validateChatURL_only_if (fun _ => true) "https://chatgpt.com/share/abc123" (by decide)

/-- C5: a well-formed URL matching no supported platform pattern is
rejected with the `UNSUPPORTED_PLATFORM` error, carrying the supported
platform names as a remediation hint, and no platform is returned. -/
theorem unsupported_platform_detection (parseOk : String → Bool) (url : String)
    (h1 : jsTrim url ≠ "") (h2 : parseOk (jsTrim url) = true)
    (h3 : platformMatch (jsTrim url) = none) :
    validateChatURL parseOk url =
      { isValid := false, platform := none, chatId := none,
        error := some unsupportedPlatformMsg,
        suggestions := some
          ["Supported platforms: ChatGPT, Claude, Gemini, Perplexity",
           "Make sure you're using a shared chat link",
           "Check that the URL format matches the platform's sharing format"] } := by
  have hurl : url ≠ "" := by
    intro he
    exact h1 (he ▸ jsTrim_empty)
  unfold validateChatURL
  rw [if_neg hurl]
  simp only []
  rw [if_neg h1, if_neg (by simp [h2]), h3]

/-- Witness for C5 at the spec's example URL. -/
theorem unsupported_platform_detection_witness :
    validateChatURL (fun _ => true) "https://example.com/chat/123" =
      { isValid := false, platform := none, chatId := none,
        error := some unsupportedPlatformMsg,
        suggestions := some
          ["Supported platforms: ChatGPT, Claude, Gemini, Perplexity",
           "Make sure you're using a shared chat link",
           "Check that the URL format matches the platform's sharing format"] } :=
  unsupported_platform_detection (fun _ => true) "https://example.com/chat/123"
    (by decide) rfl (by decide)

/-- C6 counterexample: a container with no role attribute, no class marker,
short text and no code is still classified `assistant` by
`ChatGPTParser.extractMessageRole`, not `user` as the position/length
heuristic would demand. -/
theorem chatgptparser_role_heuristic_cex :
    plainShortEl.getAttr "data-message-author-role" = none ∧
    (strToLower plainShortEl.textOf).length < 50 ∧
    jsIncludes "code" (strToLower plainShortEl.innerHtml) = false ∧
    ChatGPTParser.extractMessageRole plainShortEl = .assistant := by
  decide

/-- C6 (amended): the API route's `extractMessageRole` does implement the
heuristic: with no usable role attribute, content shorter than 50
characters whose markup has no `"code"` substring is `user`, anything else
`assistant`. -/
theorem api_role_heuristic (el : Node)
    (h1 : el.getAttr "data-message-author-role" ≠ some "user")
    (h2 : el.getAttr "data-message-author-role" ≠ some "assistant")
    (h3 : el.getAttr "data-message-author-role" ≠ some "system") :
    ApiParse.extractMessageRole el =
      if (strToLower el.textOf).length < 50 &&
          !(jsIncludes "code" (strToLower el.innerHtml)) then .user
      else .assistant := by
  unfold ApiParse.extractMessageRole
  simp [h1, h2, h3]

/-- Witness for C6 (amended): the heuristic classifies the short
marker-free container as `user`. -/
theorem api_role_heuristic_witness :
    ApiParse.extractMessageRole plainShortEl = .user := by
  have h := api_role_heuristic plainShortEl (by decide) (by decide) (by decide)
  simpa using h

/-- C7 counterexample: `ChatGPTParser.extractMessageContent` keeps a
four-character code artifact — at or below the minimal useful threshold —
rather than discarding it. -/
theorem chatgptparser_artifact_threshold_cex :
    (ChatGPTParser.extractMessageContent shortCodeEl).artifacts =
      some [{ type := .code, content := "x=1;", language := none }] ∧
    ("x=1;" : String).length ≤ 10 := by
  decide

/-- C7 (amended): in the API route's `extractMessageContent`, every code
artifact that reaches `Message.content.artifacts` has trimmed content
strictly longer than 10 characters; shorter code elements are discarded. -/
theorem api_artifact_threshold (el : Node) (a : Artifact)
    (h : a ∈ ((ApiParse.extractMessageContent el).artifacts.getD [])) :
    a.content.length > 10 := by
  unfold ApiParse.extractMessageContent at h
  simp only [] at h
  split at h
  · rename_i harts
    split at h
    · simp only [Option.getD_some] at h
      rw [List.mem_filterMap] at h
      obtain ⟨codeEl, _, hf⟩ := h
      split at hf
      · rename_i hcond
        cases hf
        exact hcond.2
      · cases hf
    · simp at h
  · simp at h

/-- Witness for C7 (amended) at a container holding a long code block. -/
theorem api_artifact_threshold_witness :
    ({ type := .code, content := demoCode, language := some "javascript" } : Artifact).content.length > 10 :=
  api_artifact_threshold longCodeEl _ (by decide)

theorem strData : ∀ (s t : String), (s ++ t).data = s.data ++ t.data
  | ⟨_⟩, ⟨_⟩ => rfl

theorem esc_infix_row (fmtTime : TimeVal → String) (its : Bool) (m : Message) :
    (CSVGenerator.escapeCSV m.content.text).data <:+:
      (CSVGenerator.row fmtTime its m).data := by
  unfold CSVGenerator.row
  cases its with
  | false =>
    refine ⟨(CSVGenerator.escapeCSV (roleToString m.role) ++ ",").data, [], ?_⟩
    simp [strData]
  | true =>
    refine ⟨(CSVGenerator.escapeCSV (roleToString m.role) ++ ",").data,
      ("," ++ CSVGenerator.escapeCSV (fmtTime m.timestamp)).data, ?_⟩
    simp [strData]

theorem row_infix_concat (r : String) (rs : List String) (h : r ∈ rs) :
    r.data <:+: (CSVGenerator.rowsConcat rs).data := by
  induction rs with
  | nil => cases h
  | cons x xs ih =>
    rcases List.mem_cons.mp h with h | h
    · subst h
      refine ⟨[], ("\n" ++ CSVGenerator.rowsConcat xs).data, ?_⟩
      simp [CSVGenerator.rowsConcat, strData]
    · obtain ⟨s, t, hst⟩ := ih h
      refine ⟨(x ++ "\n").data ++ s, t, ?_⟩
      simp [CSVGenerator.rowsConcat, strData, hst]

theorem csv_field_infix (fmtTime : TimeVal → String) (its : Bool)
    (conv : Conversation) (m : Message) (hm : m ∈ conv.messages) :
    (CSVGenerator.escapeCSV m.content.text).data <:+:
      (CSVGenerator.generate fmtTime its conv).data := by
  have h1 := esc_infix_row fmtTime its m
  have h2 : (CSVGenerator.row fmtTime its m).data <:+:
      (CSVGenerator.rowsConcat (conv.messages.map (CSVGenerator.row fmtTime its))).data :=
    row_infix_concat _ _ (List.mem_map_of_mem _ hm)
  have h3 : (CSVGenerator.rowsConcat (conv.messages.map (CSVGenerator.row fmtTime its))).data <:+:
      (CSVGenerator.generate fmtTime its conv).data := by
    unfold CSVGenerator.generate
    refine ⟨((if its then "Role,Content,Timestamp" else "Role,Content") ++ "\n").data, [], ?_⟩
    simp [strData]
  exact h1.trans (h2.trans h3)

/-- C8: a message text holding a comma and an embedded double quote appears
in the CSV output wrapped in double quotes with internal quotes doubled; a
text with none of comma, quote or newline appears unchanged. -/
theorem csv_escaping (conv : Conversation) (fmtTime : TimeVal → String) (its : Bool)
    (m : Message) (hm : m ∈ conv.messages) :
    (jsIncludes "," m.content.text = true → jsIncludes "\"" m.content.text = true →
      ("\"" ++ CSVGenerator.dq m.content.text ++ "\"").data <:+:
        (CSVGenerator.generate fmtTime its conv).data)
    ∧ (jsIncludes "," m.content.text = false → jsIncludes "\"" m.content.text = false →
       jsIncludes "\n" m.content.text = false →
      m.content.text.data <:+: (CSVGenerator.generate fmtTime its conv).data) := by
  have hfield := csv_field_infix fmtTime its conv m hm
  constructor
  · intro hc hq
    have he : CSVGenerator.escapeCSV m.content.text =
        "\"" ++ CSVGenerator.dq m.content.text ++ "\"" := by
      unfold CSVGenerator.escapeCSV
      rw [if_pos (by simp [hc, hq])]
    rwa [he] at hfield
  · intro hc hq hn
    have he : CSVGenerator.escapeCSV m.content.text = m.content.text := by
      unfold CSVGenerator.escapeCSV
      rw [if_neg (by simp [hc, hq, hn])]
    rwa [he] at hfield

/-- Witness for C8 on a conversation with one comma-and-quote message and
one plain message. -/
theorem csv_escaping_witness :
    ("\"" ++ CSVGenerator.dq "a,b\"c" ++ "\"").data <:+:
      (CSVGenerator.generate (fun _ => "TS") true csvConv).data ∧
    ("plain text" : String).data <:+:
      (CSVGenerator.generate (fun _ => "TS") true csvConv).data :=
  ⟨(csv_escaping csvConv (fun _ => "TS") true trickyMsg (by decide)).1
      (by decide) (by decide),
   (csv_escaping csvConv (fun _ => "TS") true plainMsg (by decide)).2
      (by decide) (by decide) (by decide)⟩

theorem decodeTime_toJson (t : TimeVal) : decodeTime t.toJson = some t.toStrVal := by
  cases t <;> rfl

theorem decodeRole_roleToString (r : MessageRole) :
    decodeRole (.jstr (roleToString r)) = some r := by
  cases r <;> rfl

theorem decodeArtifact_toJson (a : Artifact) : decodeArtifact a.toJson = some a := by
  rcases a with ⟨t, c, l⟩
  cases t <;> cases l <;> rfl

theorem decodeList_artifacts (l : List Artifact) :
    decodeList decodeArtifact (l.map Artifact.toJson) = some l := by
  induction l with
  | nil => rfl
  | cons a rest ih => simp [decodeList, decodeArtifact_toJson, ih]

theorem decodeContent_toJson (c : MessageContent) : decodeContent c.toJson = some c := by
  rcases c with ⟨t, arts, ⟨fa, fb, fc, fd⟩⟩
  cases arts with
  | none => rfl
  | some l =>
    simp [MessageContent.toJson, FormattingInfo.toJson, decodeContent, jLookup,
      decodeStr, decodeList_artifacts, decodeFormatting, decodeBool]

theorem decodeMsgMetadata_toJson (t : TimeVal) :
    decodeMsgMetadata (.jobj [("timestamp", t.toJson)]) = some { timestamp := t.toStrVal } := by
  cases t <;> rfl

theorem decodeMessage_toJson (m : Message) :
    decodeMessage m.toJson = some m.toStrTimes := by
  rcases m with ⟨i, r, c, ts, ⟨mts⟩⟩
  simp [Message.toJson, decodeMessage, jLookup, decodeStr, decodeRole_roleToString,
    decodeContent_toJson, decodeMsgMetadata_toJson, decodeTime_toJson,
    Message.toStrTimes]

theorem decodeList_messages (l : List Message) :
    decodeList decodeMessage (l.map Message.toJson) = some (l.map Message.toStrTimes) := by
  induction l with
  | nil => rfl
  | cons m rest ih => simp [decodeList, decodeMessage_toJson, ih]

theorem decodeConvMetadata_toJson (md : ConversationMetadata) :
    decodeConvMetadata md.toJson =
      some { md with extractedAt := md.extractedAt.toStrVal } := by
  rcases md with ⟨p, e, n, t, u⟩
  cases u <;> cases e <;> rfl

/-- C9 (amended): the JSON export round-trips losslessly up to timestamp
representation — reading the generated JSON back yields the conversation
with every `Date` field replaced by its ISO string; a conversation whose
timestamps are already strings round-trips to an equal object. -/
theorem json_roundtrip (c : Conversation) :
    decodeConversation (JSONGenerator.generateJson true c) = some c.toStrTimes := by
  rcases c with ⟨i, t, p, ca, ua, ms, md⟩
  simp [JSONGenerator.generateJson, decodeConversation, jLookup, decodeStr,
    decodeTime_toJson, decodeList_messages, decodeConvMetadata_toJson,
    Conversation.toStrTimes]

/-- C9 counterexample: a conversation carrying JS `Date` timestamps — as
`ChatGPTParser.parseFromHtml` produces — does not reconstruct to an equal
object: the parsed JSON holds ISO strings where the original held dates. -/
theorem json_roundtrip_cex :
    decodeConversation (JSONGenerator.generateJson true dateConv) ≠ some dateConv := by
  decide

/-- C10: in every conversation either parser produces, the metadata block
agrees with the top-level fields: `messageCount = messages.length`,
`metadata.title = title`, `metadata.platform = platform`, and
`metadata.url` is the source URL the parse was invoked with. -/
theorem parse_metadata_consistency (doc : Node) (url now cid : String)
    (mid mt : Nat → String) (html : String) (ourl : Option String)
    (pd : String → Option String) :
    (∀ c, ApiParse.parseConversationFromHtml doc url now cid mid mt = .ok c →
      c.metadata.messageCount = c.messages.length ∧ c.metadata.title = c.title ∧
      c.metadata.platform = c.platform ∧ c.metadata.url = some url)
    ∧ (∀ c, ChatGPTParser.parseFromHtml html doc ourl pd now cid mid mt = .ok c →
      c.metadata.messageCount = c.messages.length ∧ c.metadata.title = c.title ∧
      c.metadata.platform = c.platform ∧ c.metadata.url = ourl) := by
  constructor
  · intro c hc
    unfold ApiParse.parseConversationFromHtml at hc
    simp only [] at hc
    split at hc
    · cases hc
    · cases hc
      exact ⟨rfl, rfl, rfl, rfl⟩
  · intro c hc
    unfold ChatGPTParser.parseFromHtml at hc
    split at hc
    · cases hc
    · simp only [] at hc
      split at hc
      · cases hc
      · cases hc
        exact ⟨rfl, rfl, rfl, rfl⟩

/-- Witness for C10: both parsers on the two-turn fixture. -/
theorem parse_metadata_consistency_witness :
    (demoConv.metadata.messageCount = demoConv.messages.length ∧
      demoConv.metadata.title = demoConv.title ∧
      demoConv.metadata.platform = demoConv.platform ∧
      demoConv.metadata.url = some "https://chatgpt.com/share/abc")
    ∧ (demoConvFrontend.metadata.messageCount = demoConvFrontend.messages.length ∧
      demoConvFrontend.metadata.title = demoConvFrontend.title ∧
      demoConvFrontend.metadata.platform = demoConvFrontend.platform ∧
      demoConvFrontend.metadata.url = some "https://chatgpt.com/share/abc") :=
  ⟨(parse_metadata_consistency demoDoc "https://chatgpt.com/share/abc"
      "2024-01-01T00:00:00.000Z" "conv-1" (fun i => "msg-" ++ toString i)
      (fun _ => "2024-01-01T00:00:00.000Z") "chatgpt page"
      (some "https://chatgpt.com/share/abc") (fun _ => none)).1 demoConv rfl,
   (parse_metadata_consistency demoDoc "https://chatgpt.com/share/abc"
      "2024-01-01T00:00:00.000Z" "conv-2" (fun i => "msg-" ++ toString i)
      (fun _ => "2024-01-01T00:00:00.000Z") "chatgpt page"
      (some "https://chatgpt.com/share/abc") (fun _ => none)).2 demoConvFrontend rfl⟩
